import Mathlib

/-!
Verification of the django-webdav WebDAV engine (`django_webdav/__init__.py`).

Strings are modelled as `List Char` where character-level reasoning is
needed (path utilities) and as `String` elsewhere.  The file-system backend
is modelled as an association list from resource paths to nodes; the fixed
`DAV_ROOT` prefix that `get_abs_path` prepends via `safe_join` is elided,
so the model keys resources by their request path (the prefixing is uniform
across every access and does not affect any of the properties below).
-/

namespace DjangoWebdav

/-- A slash character (written via its code point). -/
def slash : Char := Char.ofNat 47

/-- Left curly brace character (code point 123). -/
def lbrace : Char := Char.ofNat 123

/-- Right curly brace character (code point 125). -/
def rbrace : Char := Char.ofNat 125

/-- The loop `while root.endswith('/'): root = root[:-1]` from `safe_join`
(and the trailing-slash strip in `DavResource.__init__` and
`str.rstrip('/')` inside `os.path.dirname`): removes every trailing
slash. -/
def rstripSlashes : List Char → List Char
  | [] => []
  | c :: cs =>
    match rstripSlashes cs with
    | [] => if c = slash then [] else [c]
    | r => c :: r

/-- The loop `while path.startswith('/'): path = path[1:]` from
`safe_join`: removes every leading slash. -/
def lstripSlashes (cs : List Char) : List Char :=
  cs.dropWhile (fun c => c = slash)

/-- `if not root.startswith('/'): root = '/' + root` from `safe_join`. -/
def ensureSlash (root : List Char) : List Char :=
  if root.head? = some slash then root else slash :: root

/-- One iteration of the `for path in paths` loop of `safe_join`:
strip trailing slashes from the accumulator, strip leading slashes from
the next segment, and append them with a single slash. -/
def joinStep (root p : List Char) : List Char :=
  rstripSlashes root ++ slash :: lstripSlashes p

/-- `safe_join(root, *paths)` from `django_webdav/__init__.py`. -/
def safe_join (root : List Char) (paths : List (List Char)) : List Char :=
  paths.foldl joinStep (ensureSlash root)

/-- Whether a character list contains two consecutive slashes. -/
def hasDoubleSlash : List Char → Bool
  | [] => false
  | [_] => false
  | a :: b :: rest => (a = slash && b = slash) || hasDoubleSlash (b :: rest)

/-- Whether the last character is a slash. -/
def lastIsSlash : List Char → Bool
  | [] => false
  | [c] => c = slash
  | _ :: b :: rest => lastIsSlash (b :: rest)

/-- `p[:i]` where `i = p.rfind('/') + 1`: the part of the path up to and
including the last slash (empty when there is no slash).  First step of
`posixpath.dirname`, which `DavResource.get_parent` uses via
`os.path.dirname`. -/
def takeToLastSlash (cs : List Char) : List Char :=
  (cs.reverse.dropWhile (fun c => c ≠ slash)).reverse

/-- `posixpath.dirname(p)`: take `p` up to the last slash; if that head is
nonempty and not made of slashes only, strip its trailing slashes. -/
def dirname (p : String) : String :=
  let head := takeToLastSlash p.data
  if head ≠ [] ∧ head.any (fun c => c ≠ slash) then String.mk (rstripSlashes head)
  else String.mk head

/-- The trailing-slash strip performed by `DavResource.__init__` on the
path it is handed. -/
def mkResPath (p : String) : String :=
  String.mk (rstripSlashes p.data)

/-- The record built by `DavAcl` — one boolean per permission. -/
structure DavAcl where
  read : Bool
  write : Bool
  delete : Bool
  create : Bool
  relocate : Bool
  list : Bool
deriving DecidableEq

/-- `DavAcl.__init__(read=True, write=True, delete=True, create=True,
relocate=True, list=True, all=None)`.  Its first statement sets every
field to `all` when `all` is not `None`; the six assignments that follow
then set every field from the corresponding keyword parameter
unconditionally (when `all` is `None` the first statement assigns
nothing, so the placeholder record in that branch is immediately
overwritten field by field either way). -/
def DavAcl.init (read write delete create relocate l : Bool)
    (all : Option Bool) : DavAcl :=
  let acl0 : DavAcl :=
    match all with
    | some a => ⟨a, a, a, a, a, a⟩
    | none => ⟨read, write, delete, create, relocate, l⟩
  { acl0 with read := read, write := write, delete := delete,
              create := create, relocate := relocate, list := l }

/-- `DavServer.get_access`: the call `self.acl_class(list=True, read=True,
all=False)`; the parameters not passed take their declared defaults
(`write=True, delete=True, create=True, relocate=True`). -/
def get_access : DavAcl :=
  DavAcl.init true true true true true true (some false)

/-- The ACL that the spec and the `get_access` docstring describe:
`list` and `read` on, everything else off. -/
def specReadOnlyAcl : DavAcl :=
  ⟨true, false, false, false, false, true⟩

/-! ## rfc3339_date

`rfc3339_date` receives UNIX timestamps (it is called on
`res.get_ctime_stamp()`), modelled as `Int` seconds.  The conversion
`datetime.date.fromtimestamp(ts)` produces a *calendar date* — the time
of day is discarded; the date is the local civil date of the instant,
i.e. the civil day containing `ts + localOff` where `localOff` is the
local UTC offset used by `localtime`.  Adding
`datetime.timedelta(seconds=s)` to a `datetime.date` shifts it by the
timedelta's (floor-)normalised whole-day component only.
`date.strftime` renders the hour, minute and second fields as zero. -/

/-- The locale parameters the function reads from the `time` module
(`time.timezone`, `time.daylight`, `time.altzone`) together with the
UTC offset `localtime` applies inside `date.fromtimestamp`. -/
structure TzInfo where
  timezone : Int
  daylight : Bool
  altzone : Int
  localOff : Int
deriving DecidableEq

/-- A UTC locale with no daylight saving. -/
def utcTz : TzInfo := ⟨0, false, 0, 0⟩

/-- Proleptic-Gregorian civil date from days since the epoch
(1970-01-01 is day 0); the standard era/year-of-era decomposition used
by calendar libraries, matching Python's `datetime` calendar. -/
def civilFromDays (z0 : Int) : Int × Nat × Nat :=
  let z := z0 + 719468
  let era : Int := Int.fdiv z 146097
  let doe : Nat := (z - era * 146097).toNat
  let yoe : Nat := (doe - doe / 1460 + doe / 36524 - doe / 146096) / 365
  let y : Int := (yoe : Int) + era * 400
  let doy : Nat := doe - (365 * yoe + yoe / 4 - yoe / 100)
  let mp : Nat := (5 * doy + 2) / 153
  let d : Nat := doy - (153 * mp + 2) / 5 + 1
  let m : Nat := if mp < 10 then mp + 3 else mp - 9
  (if m ≤ 2 then y + 1 else y, m, d)

/-- Zero-pad a number to two digits (strftime `%m`, `%d`). -/
def pad2 (n : Nat) : String :=
  if n < 10 then "0" ++ toString n else toString n

/-- Zero-pad a year to four digits (strftime `%Y`; negative years do not
occur for the timestamps in play). -/
def pad4 (y : Int) : String :=
  let n := y.toNat
  if n < 10 then "000" ++ toString n
  else if n < 100 then "00" ++ toString n
  else if n < 1000 then "0" ++ toString n
  else toString n

/-- `date.strftime('%Y-%m-%d')` for the civil date of epoch day `z`. -/
def formatCivil (z : Int) : String :=
  let c := civilFromDays z
  pad4 c.1 ++ "-" ++ pad2 c.2.1 ++ "-" ++ pad2 c.2.2

/-- `rfc3339_date(ts)` from `django_webdav/__init__.py`, for a numeric
timestamp `ts` (which is falsy exactly when it is zero):
`datetime.date.fromtimestamp(ts)` keeps only the local civil day;
`date + timedelta(seconds=-time.timezone)` shifts by the whole-day part
of that timedelta; likewise for `time.altzone` when `time.daylight` is
set; `strftime('%Y-%m-%dT%H:%M:%SZ')` on a `date` renders the time of
day as `00:00:00`. -/
def rfc3339_date (tz : TzInfo) (ts : Int) : String :=
  if ts = 0 then ""
  else
    let day0 := Int.fdiv (ts + tz.localOff) 86400
    let day1 := day0 + Int.fdiv (-tz.timezone) 86400
    let day2 := if tz.daylight then day1 + Int.fdiv tz.altzone 86400 else day1
    formatCivil day2 ++ "T00:00:00Z"

/-! ## Clark-notation helpers and the property provider -/

/-- Split a character list at the first right brace, which is removed;
`none` when there is none (`"}" in tag` fails). -/
def splitFirstRB : List Char → Option (List Char × List Char)
  | [] => none
  | c :: cs =>
    if c = rbrace then some ([], cs)
    else
      match splitFirstRB cs with
      | some (pre, post) => some (c :: pre, post)
      | none => none

/-- `ns_split(tag)`: when `tag` starts with a left brace and contains a
right brace, `tag.split("}", 1)` yields `ns` (still holding the leading
brace) and the bare name, and `ns[1:-1]` drops the brace and the last
character before the right brace (the colon of the `ns_join` convention
used throughout this module); otherwise `("", tag)`. -/
def ns_split (tag : String) : String × String :=
  match tag.data with
  | [] => ("", tag)
  | c :: rest =>
    if c = lbrace then
      match splitFirstRB rest with
      | some (pre, post) => (String.mk pre.dropLast, String.mk post)
      | none => ("", tag)
    else ("", tag)

/-- The `DAV_LIVE_PROPERTIES` tuple (braces written via escapes). -/
def DAV_LIVE_PROPERTIES : List String :=
  ["\x7bDAV:\x7dgetetag", "\x7bDAV:\x7dgetcontentlength",
   "\x7bDAV:\x7dcreationdate", "\x7bDAV:\x7dgetlastmodified",
   "\x7bDAV:\x7dresourcetype", "\x7bDAV:\x7ddisplayname"]

/-- A property value as produced by `DavProperty.get_properties`: either
a plain string or an `ElementTree` element fragment (only
`<collection/>` arises, identified by its tag). -/
inductive PropValue where
  | str (s : String)
  | elem (tag : String)
deriving DecidableEq

/-- The observations `get_properties` makes of a resource, one field per
`DavResource` accessor it calls.  `mtimeHttp` stands for
`http_date(res.get_mtime_stamp())` (Django's RFC 1123 formatter, an
external collaborator, modelled as an observation). -/
structure ResView where
  etag : String
  size : Nat
  ctime : Int
  mtimeHttp : String
  isDir : Bool
  name : String
  url : String
deriving DecidableEq

/-- The `value` computed by the non-names-only branch of
`get_properties` for one property name: `None` (here `none`) unless the
namespace is `DAV` and the bare name is one of the handled live
properties.  `resourcetype` on a non-collection computes the empty
string, which is not `None` and therefore lands in `found`. -/
def liveValue (tz : TzInfo) (res : ResView) (name : String) : Option PropValue :=
  let p := ns_split name
  if p.1 ≠ "DAV" then none
  else if p.2 = "getetag" then some (PropValue.str res.etag)
  else if p.2 = "getcontentlength" then some (PropValue.str (toString res.size))
  else if p.2 = "creationdate" then some (PropValue.str (rfc3339_date tz res.ctime))
  else if p.2 = "getlastmodified" then some (PropValue.str res.mtimeHttp)
  else if p.2 = "resourcetype" then
    if res.isDir then some (PropValue.elem "\x7bDAV:\x7dcollection")
    else some (PropValue.str "")
  else if p.2 = "displayname" then some (PropValue.str res.name)
  else if p.2 = "href" then some (PropValue.str res.url)
  else none

/-- `DavProperty.get_properties(res, *names, names_only=...)`: returns
the `found` pairs (value `none` standing for Python's `None` in
names-only mode) and the `missing` names, accumulated in order. -/
def get_properties (tz : TzInfo) (res : ResView) (names : List String)
    (namesOnly : Bool) : List (String × Option PropValue) × List String :=
  names.foldl
    (fun acc name =>
      if namesOnly then
        if name ∈ DAV_LIVE_PROPERTIES then (acc.1 ++ [(name, none)], acc.2)
        else acc
      else
        match liveValue tz res name with
        | none => (acc.1, acc.2 ++ [name])
        | some v => (acc.1 ++ [(name, some v)], acc.2))
    ([], [])

/-! ## PROPFIND request-body parsing -/

/-- One XML element as seen by the `iterparse` loop of `doPROPFIND`:
its tag and the tags of its direct children (the loop only reads
those). -/
structure XmlEl where
  tag : String
  childTags : List String
deriving DecidableEq

/-- The `for ev, el in ElementTree.iterparse(...)` loop of `doPROPFIND`
over the end-events in document order, threading `(names_only, props)`;
`none` is the 400 Bad Request early return. -/
def propfindBodyFold : List XmlEl → Bool → List String → Option (Bool × List String)
  | [], namesOnly, props => some (namesOnly, props)
  | el :: rest, namesOnly, props =>
    if el.tag = "\x7bDAV:\x7dallprop" then
      if props.isEmpty then propfindBodyFold rest namesOnly props else none
    else if el.tag = "\x7bDAV:\x7dpropname" then
      propfindBodyFold rest true props
    else if el.tag = "\x7bDAV:\x7dprop" then
      if namesOnly then none
      else propfindBodyFold rest namesOnly (props ++ el.childTags)
    else propfindBodyFold rest namesOnly props

/-- The property-selection phase of `doPROPFIND` (lines 541-557): a
missing, empty or zero `Content-Length` means all live properties with
`names_only` off; otherwise the body is parsed.  `contentLength = none`
covers an absent or empty header (both falsy). -/
def propfindSelect (contentLength : Option Nat) (body : List XmlEl) :
    Option (Bool × List String) :=
  if contentLength.getD 0 = 0 then some (false, DAV_LIVE_PROPERTIES)
  else propfindBodyFold body false []

/-- The found-propstat content `doPROPFIND` emits for one resource in
its `{DAV:}response`: the `found` list of `get_properties` for the
selected names; the 200 OK propstat element is only created when this
list is nonempty. -/
def propfindFoundProps (tz : TzInfo) (res : ResView) (sel : Bool × List String) :
    List (String × Option PropValue) :=
  (get_properties tz res sel.2 sel.1).1

/-! ## File-system backend and response statuses -/

/-- A node of the exported tree: a file with its byte content, or a
directory (collection). -/
inductive Node where
  | file (content : String)
  | dir
deriving DecidableEq

/-- The backend state: association list from resource paths to nodes. -/
def FS := List (String × Node)

instance : DecidableEq FS := by
  unfold FS
  infer_instance

/-- Look a path up in the backend. -/
def lookupFS : FS → String → Option Node
  | [], _ => none
  | (q, m) :: rest, p => if q = p then some m else lookupFS rest p

/-- `res.exists()` — `os.path.exists` on the resource's path. -/
def fsExists (fs : FS) (p : String) : Bool :=
  (lookupFS fs p).isSome

/-- `res.isdir()` — `os.path.isdir` on the resource's path. -/
def fsIsdir (fs : FS) (p : String) : Bool :=
  match lookupFS fs p with
  | some Node.dir => true
  | _ => false

/-- `res.isfile()` — `os.path.isfile` on the resource's path. -/
def fsIsfile (fs : FS) (p : String) : Bool :=
  match lookupFS fs p with
  | some (Node.file _) => true
  | _ => false

/-- Store a node at a path, replacing any previous node there
(`open(..., 'w')` content replacement, `os.mkdir`). -/
def setNode : FS → String → Node → FS
  | [], p, n => [(p, n)]
  | (q, m) :: rest, p, n =>
    if q = p then (p, n) :: rest else (q, m) :: setNode rest p n

/-- `DavResource.delete()`: recursively removes the node and everything
below it (children carry paths extending the parent's path by a
slash). -/
def deleteTree (fs : FS) (p : String) : FS :=
  fs.filter (fun e => !(e.1 == p || String.isPrefixOf (p ++ "/") e.1))

/-- The response statuses the engine produces, by their HTTP codes
(the module shadows Django's `HttpResponseNotAllowed` with its own
405 subclass). -/
inductive Status where
  | ok
  | created
  | noContent
  | multiStatus
  | badRequest
  | forbidden
  | notFound
  | methodNotAllowed
  | conflict
  | preconditionFailed
  | unsupportedMediaType
  | notImplemented
  | badGateway
deriving DecidableEq

/-- Numeric HTTP status code of each response class. -/
def Status.code : Status → Nat
  | .ok => 200
  | .created => 201
  | .noContent => 204
  | .multiStatus => 207
  | .badRequest => 400
  | .forbidden => 403
  | .notFound => 404
  | .methodNotAllowed => 405
  | .conflict => 409
  | .preconditionFailed => 412
  | .unsupportedMediaType => 415
  | .notImplemented => 501
  | .badGateway => 502

/-! ## PUT and MKCOL handlers -/

/-- `DavServer.doPUT`: the resource is built from the request path
(trailing slashes stripped); a collection target is 405; a missing
parent (`res.get_parent()`, whose path is `os.path.dirname(self.path)`
re-stripped by the constructor) is 404; denied `write` is 403;
otherwise the body is streamed into the resource and the status is 201
exactly when the target did not exist before the write. -/
def doPUT (fs : FS) (acl : DavAcl) (reqPath body : String) : Status × FS :=
  let path := mkResPath reqPath
  if fsIsdir fs path then (Status.methodNotAllowed, fs)
  else if fsExists fs (mkResPath (dirname path)) = false then (Status.notFound, fs)
  else if acl.write = false then (Status.forbidden, fs)
  else
    let created := fsExists fs path = false
    let fs2 := setNode fs path (Node.file body)
    (if created then Status.created else Status.noContent, fs2)

/-- `DavServer.doMKCOL`: existing target is 405; missing parent is 409;
a truthy `CONTENT_LENGTH` that parses to a nonzero integer is 415
(`none` models an absent or empty header, both falsy); denied `create`
is 403; otherwise `res.mkdir()` creates the collection and the status
is 201. -/
def doMKCOL (fs : FS) (acl : DavAcl) (reqPath : String)
    (contentLength : Option Nat) : Status × FS :=
  let path := mkResPath reqPath
  if fsExists fs path then (Status.methodNotAllowed, fs)
  else if fsExists fs (mkResPath (dirname path)) = false then (Status.conflict, fs)
  else if contentLength.getD 0 ≠ 0 then (Status.unsupportedMediaType, fs)
  else if acl.create = false then (Status.forbidden, fs)
  else (Status.created, setNode fs path Node.dir)

/-! ## COPY / MOVE handler -/

/-- The scheme/netloc/path triple `urlparse` extracts from the
URL-decoded `Destination` header (decoding and parsing are standard
library collaborators, modelled as already applied). -/
structure UrlParts where
  scheme : String
  netloc : String
  path : String
deriving DecidableEq

/-- The request data `doCOPY` consumes: the routed path tail, the parsed
`Destination` header (`none` when the header is absent or empty, both
falsy after `unquote`), the scheme and netloc of the request's own
absolute URI, the base prefix `request.get_base()` and the raw
`Overwrite` and `Depth` headers (`none` when absent, in which case
`META.get` supplies the defaults `'T'` and `'infinity'`). -/
structure CopyReq where
  path : String
  destination : Option UrlParts
  srcScheme : String
  srcNetloc : String
  base : String
  overwrite : Option String
  depth : Option String
deriving DecidableEq

/-- `str.lower()` on a header value; the header values in play are
ASCII, for which Python's Unicode lower-casing coincides with ASCII
lower-casing. -/
def lowerAscii (s : String) : String :=
  String.mk (s.data.map (fun c =>
    if 65 ≤ c.toNat ∧ c.toNat ≤ 90 then Char.ofNat (c.toNat + 32) else c))

/-- The outcome of `doCOPY`: a response with the resulting backend
state, or the `NameError` raised by evaluating the undefined name
`HtpResponseNotFound` (a typo for `HttpResponseNotFound`) on line 451;
the state carried by `nameError` is the backend at the moment the
exception propagates. -/
inductive CopyOutcome where
  | response (s : Status) (fs : FS)
  | nameError (fs : FS)
deriving DecidableEq

/-- `DavServer.doCOPY` (also `doMOVE` via `move=True`).  The copy and
move of the resource tree are the `resource_class`'s `copy`/`move`
methods, injected here as `bCopy`/`bMove` taking the backend state, the
source and destination paths (and the depth for copy) and returning the
new state together with the truthiness of the returned `errors` value —
the default `DavResource.copy`/`DavResource.move` return `None`, i.e.
`false`. -/
def doCOPY (fs : FS) (acl : DavAcl) (req : CopyReq) (move : Bool)
    (bCopy : FS → String → String → Int → FS × Bool)
    (bMove : FS → String → String → FS × Bool) : CopyOutcome :=
  let path := mkResPath req.path
  if fsExists fs path = false then CopyOutcome.nameError fs
  else if acl.relocate = false then CopyOutcome.response Status.forbidden fs
  else
    match req.destination with
    | none => CopyOutcome.response Status.badRequest fs
    | some dparts =>
      if req.srcScheme ≠ dparts.scheme ∨ req.srcNetloc ≠ dparts.netloc then
        CopyOutcome.response Status.badGateway fs
      else
        let dst := mkResPath (dparts.path.drop req.base.length)
        if fsExists fs (mkResPath (dirname dst)) = false then
          CopyOutcome.response Status.conflict fs
        else
          let ow := req.overwrite.getD "T"
          if ow ≠ "T" ∧ ow ≠ "F" then CopyOutcome.response Status.badRequest fs
          else if ¬ ow = "T" ∧ fsExists fs dst then
            CopyOutcome.response Status.preconditionFailed fs
          else
            let depthStr := lowerAscii (req.depth.getD "infinity")
            if depthStr ≠ "0" ∧ depthStr ≠ "1" ∧ depthStr ≠ "infinity" then
              CopyOutcome.response Status.badRequest fs
            else
              let depth : Int :=
                if depthStr = "infinity" then -1
                else if depthStr = "0" then 0 else 1
              if move ∧ depth ≠ -1 then CopyOutcome.response Status.badRequest fs
              else if depth ≠ 0 ∧ depth ≠ -1 then
                CopyOutcome.response Status.badRequest fs
              else
                let dstExists := fsExists fs dst
                let opResult :=
                  if move then bMove (deleteTree fs dst) path dst
                  else bCopy fs path dst depth
                if opResult.2 then CopyOutcome.response Status.multiStatus opResult.1
                else if dstExists then CopyOutcome.response Status.noContent opResult.1
                else CopyOutcome.response Status.created opResult.1

/-! ## OPTIONS handler -/

/-- The observable parts of an OPTIONS response: status code and the
`DAV`, `Allow` and `Allow-Ranges` headers (the `Date` header, always
set on the shared response object, is a transport observation and
elided).  The 404 branch returns a fresh `HttpResponseNotFound()`
carrying none of these headers. -/
structure OptionsResponse where
  status : Nat
  dav : Option String
  allow : Option String
  allowRanges : Option String
deriving DecidableEq

/-- `DavServer.doOPTIONS`: the `DAV: 1,2` header is set on the response
object created first; the raw request path `'/'` or `'*'` returns it as
is; a missing target falls back to its parent — a non-collection parent
returns a fresh 404 response (without the `DAV` header); otherwise the
`Allow` header is filled per the target's kind. -/
def doOPTIONS (fs : FS) (reqPath : String) : OptionsResponse :=
  if reqPath = "/" ∨ reqPath = "*" then ⟨200, some "1,2", none, none⟩
  else
    let path := mkResPath reqPath
    if fsExists fs path = false then
      let parent := mkResPath (dirname path)
      if fsIsdir fs parent = false then ⟨404, none, none, none⟩
      else ⟨200, some "1,2", some "OPTIONS PUT MKCOL", none⟩
    else if fsIsdir fs path then
      ⟨200, some "1,2",
       some "OPTIONS HEAD GET DELETE PROPFIND PROPPATCH COPY MOVE LOCK UNLOCK", none⟩
    else
      ⟨200, some "1,2",
       some "OPTIONS HEAD GET PUT DELETE PROPFIND PROPPATCH COPY MOVE LOCK UNLOCK",
       some "bytes"⟩

/-! ## Concrete fixtures used to evaluate the model -/

/-- A small backend: the root collection, a collection `/a` holding one
file, and a file `/b.txt`. -/
def fsSample : FS :=
  [("", Node.dir), ("/a", Node.dir), ("/a/f.txt", Node.file "hi"),
   ("/b.txt", Node.file "bb")]

/-- An ACL granting everything. -/
def aclAll : DavAcl := ⟨true, true, true, true, true, true⟩

/-- An ACL granting nothing. -/
def aclNone : DavAcl := ⟨false, false, false, false, false, false⟩

/-- A concrete non-collection resource view. -/
def res0 : ResView :=
  ⟨"e0", 5, 3661, "Thu, 01 Jan 1970 01:01:01 GMT", false, "f.txt",
   "http://h/a/f.txt"⟩

/-- The end-event element sequence `iterparse` yields for the body
`<propfind xmlns="DAV:"><propname/></propfind>`: the empty `propname`
element first, then the enclosing `propfind` element. -/
def propnameBody : List XmlEl :=
  [⟨"\x7bDAV:\x7dpropname", []⟩,
   ⟨"\x7bDAV:\x7dpropfind", ["\x7bDAV:\x7dpropname"]⟩]

/-- A resource-class copy operation returning no errors (`None`), as the
default `DavResource.copy` does. -/
def noopCopy : FS → String → String → Int → FS × Bool :=
  fun fs _ _ _ => (fs, false)

/-- A resource-class move operation returning no errors (`None`), as the
default `DavResource.move` does. -/
def noopMove : FS → String → String → FS × Bool :=
  fun fs _ _ => (fs, false)

/-- A resource-class copy operation reporting per-child errors. -/
def errCopy : FS → String → String → Int → FS × Bool :=
  fun fs _ _ _ => (fs, true)

/-- A COPY request whose source path does not exist in `fsSample`. -/
def copyReqMissing : CopyReq :=
  ⟨"/nope.txt", some ⟨"http", "h", "/dst.txt"⟩, "http", "h", "", none, none⟩

/-- A COPY/MOVE request carrying `Overwrite: F` whose destination
`/b.txt` exists in `fsSample`. -/
def copyReqOwF : CopyReq :=
  ⟨"/a/f.txt", some ⟨"http", "h", "/b.txt"⟩, "http", "h", "", some "F", none⟩

/-- A COPY request passing every header check, destination `/c.txt`
absent from `fsSample`. -/
def copyReqOk : CopyReq :=
  ⟨"/a/f.txt", some ⟨"http", "h", "/c.txt"⟩, "http", "h", "", none, none⟩

/-- The destination resource path `doCOPY` computes on line 464:
`dparts.path[len(base):]`, re-stripped by the resource constructor. -/
def destPath (req : CopyReq) (d : UrlParts) : String :=
  mkResPath (d.path.drop req.base.length)

/-! ## Lemmas on the path utilities (claim C5) -/

theorem ensureSlash_head (r : List Char) : (ensureSlash r).head? = some slash := by
  unfold ensureSlash
  split
  · assumption
  · rfl

theorem rstripSlashes_head (r : List Char) :
    rstripSlashes r = [] ∨ (rstripSlashes r).head? = r.head? := by
  induction r with
  | nil => exact Or.inl rfl
  | cons c cs ih =>
    unfold rstripSlashes
    rcases h : rstripSlashes cs with _ | ⟨d, ds⟩
    · by_cases hc : c = slash <;> simp [hc]
    · simp

theorem joinStep_head (r p : List Char) (h : r.head? = some slash) :
    (joinStep r p).head? = some slash := by
  unfold joinStep
  rcases rstripSlashes_head r with h0 | h0
  · simp [h0]
  · rcases hh : rstripSlashes r with _ | ⟨d, ds⟩
    · simp
    · rw [hh] at h0
      rw [← h0] at h
      simp only [List.head?] at h
      simpa using h

theorem foldl_joinStep_head (ps : List (List Char)) :
    ∀ r, r.head? = some slash → (ps.foldl joinStep r).head? = some slash := by
  induction ps with
  | nil => intro r h; exact h
  | cons p ps ih => intro r h; exact ih _ (joinStep_head r p h)

theorem safe_join_head (root : List Char) (ps : List (List Char)) :
    (safe_join root ps).head? = some slash :=
  foldl_joinStep_head ps _ (ensureSlash_head root)

theorem ensureSlash_of_head (r : List Char) (h : r.head? = some slash) :
    ensureSlash r = r := by
  unfold ensureSlash
  simp [h]

theorem safe_join_append (a : List Char) (ps qs : List (List Char)) :
    safe_join (safe_join a ps) qs = safe_join a (ps ++ qs) := by
  have h := ensureSlash_of_head _ (safe_join_head a ps)
  unfold safe_join at h ⊢
  rw [h, List.foldl_append]

theorem hasDoubleSlash_tail (a : Char) (l : List Char)
    (h : hasDoubleSlash (a :: l) = false) : hasDoubleSlash l = false := by
  cases l with
  | nil => rfl
  | cons b r =>
    unfold hasDoubleSlash at h
    simp only [Bool.or_eq_false_iff] at h
    exact h.2

theorem hasDoubleSlash_rstrip (r : List Char) (h : hasDoubleSlash r = false) :
    hasDoubleSlash (rstripSlashes r) = false := by
  induction r with
  | nil => rfl
  | cons c cs ih =>
    have hcs := hasDoubleSlash_tail c cs h
    unfold rstripSlashes
    rcases hr : rstripSlashes cs with _ | ⟨d, ds⟩
    · by_cases hc : c = slash <;> simp [hc, hasDoubleSlash]
    · have h1 : hasDoubleSlash (d :: ds) = false := by
        rw [← hr]; exact ih hcs
      rcases rstripSlashes_head cs with h2 | h2
      · rw [h2] at hr; cases hr
      · rw [hr] at h2
        cases cs with
        | nil => simp [rstripSlashes] at hr
        | cons e es =>
          simp only [List.head?] at h2
          have hde : d = e := by injection h2
          unfold hasDoubleSlash at h
          simp only [Bool.or_eq_false_iff, Bool.and_eq_false_iff] at h
          unfold hasDoubleSlash
          simp only [Bool.or_eq_false_iff, Bool.and_eq_false_iff]
          refine ⟨?_, h1⟩
          rcases h.1 with he | he
          · exact Or.inl he
          · exact Or.inr (by rw [hde]; exact he)

theorem lastIsSlash_rstrip (r : List Char) :
    lastIsSlash (rstripSlashes r) = false := by
  induction r with
  | nil => rfl
  | cons c cs ih =>
    unfold rstripSlashes
    rcases hr : rstripSlashes cs with _ | ⟨d, ds⟩
    · by_cases hc : c = slash <;> simp [hc, lastIsSlash]
    · have : lastIsSlash (c :: d :: ds) = lastIsSlash (d :: ds) := rfl
      rw [this, ← hr]
      exact ih

theorem lstripSlashes_head (p : List Char) :
    (lstripSlashes p).head? ≠ some slash := by
  induction p with
  | nil => simp [lstripSlashes]
  | cons c cs ih =>
    unfold lstripSlashes at ih ⊢
    by_cases hc : c = slash
    · simpa [List.dropWhile_cons, hc] using ih
    · simp [List.dropWhile_cons, hc]

theorem hasDoubleSlash_lstrip (p : List Char) (h : hasDoubleSlash p = false) :
    hasDoubleSlash (lstripSlashes p) = false := by
  induction p with
  | nil => rfl
  | cons c cs ih =>
    unfold lstripSlashes at ih ⊢
    by_cases hc : c = slash
    · have step : List.dropWhile (fun x => x = slash) (c :: cs)
          = List.dropWhile (fun x => x = slash) cs := by
        simp [List.dropWhile_cons, hc]
      rw [step]
      exact ih (hasDoubleSlash_tail c cs h)
    · simpa [List.dropWhile_cons, hc] using h

theorem hasDoubleSlash_slash_cons (v : List Char) (hv : hasDoubleSlash v = false)
    (hv1 : v.head? ≠ some slash) : hasDoubleSlash (slash :: v) = false := by
  cases v with
  | nil => rfl
  | cons w ws =>
    have hw : ¬ w = slash := by
      intro e; exact hv1 (by simp [e])
    unfold hasDoubleSlash
    simp [hw, hv]

theorem hasDoubleSlash_append (v : List Char) (hv : hasDoubleSlash v = false)
    (hv1 : v.head? ≠ some slash) :
    ∀ u, hasDoubleSlash u = false → lastIsSlash u = false →
      hasDoubleSlash (u ++ slash :: v) = false := by
  intro u
  induction u with
  | nil =>
    intro _ _
    exact hasDoubleSlash_slash_cons v hv hv1
  | cons x us ih =>
    intro hu hlast
    cases us with
    | nil =>
      have hx : ¬ x = slash := by simpa [lastIsSlash] using hlast
      have h0 := hasDoubleSlash_slash_cons v hv hv1
      simpa [hasDoubleSlash, hx] using h0
    | cons y us' =>
      have h1 : hasDoubleSlash (y :: us') = false := hasDoubleSlash_tail x _ hu
      have hl : lastIsSlash (y :: us') = false := hlast
      have h2 := ih h1 hl
      unfold hasDoubleSlash at hu
      simp only [Bool.or_eq_false_iff] at hu
      show hasDoubleSlash (x :: y :: (us' ++ slash :: v)) = false
      unfold hasDoubleSlash
      simp only [Bool.or_eq_false_iff]
      exact ⟨hu.1, h2⟩

theorem hasDoubleSlash_joinStep (r p : List Char)
    (hr : hasDoubleSlash r = false) (hp : hasDoubleSlash p = false) :
    hasDoubleSlash (joinStep r p) = false := by
  unfold joinStep
  exact hasDoubleSlash_append (lstripSlashes p) (hasDoubleSlash_lstrip p hp)
    (lstripSlashes_head p) (rstripSlashes r) (hasDoubleSlash_rstrip r hr)
    (lastIsSlash_rstrip r)

theorem hasDoubleSlash_ensure (r : List Char) (h : hasDoubleSlash r = false) :
    hasDoubleSlash (ensureSlash r) = false := by
  unfold ensureSlash
  split
  · exact h
  · next hne => exact hasDoubleSlash_slash_cons r h hne

theorem hasDoubleSlash_safe_join (root : List Char) (ps : List (List Char))
    (hroot : hasDoubleSlash root = false)
    (hps : ∀ p ∈ ps, hasDoubleSlash p = false) :
    hasDoubleSlash (safe_join root ps) = false := by
  unfold safe_join
  have main : ∀ (qs : List (List Char)) (r : List Char), hasDoubleSlash r = false →
      (∀ p ∈ qs, hasDoubleSlash p = false) →
      hasDoubleSlash (qs.foldl joinStep r) = false := by
    intro qs
    induction qs with
    | nil => intro r h _; exact h
    | cons q qs ih =>
      intro r h hq
      exact ih _ (hasDoubleSlash_joinStep r q h (hq q (by simp)))
        (fun p hp => hq p (by simp [hp]))
  exact main ps _ (hasDoubleSlash_ensure root hroot) hps

/-! ## Claim theorems -/

/-- Claim C1: the default ACL provider does not return a read-only ACL.
`DavServer.get_access` calls `DavAcl(list=True, read=True, all=False)`,
but `DavAcl.__init__` reassigns every field from its keyword parameters
(whose defaults are all `True`) after the `all` assignment, so the
returned ACL grants every permission — `write`, `delete`, `create` and
`relocate` are `true`, not `false` as the claim (and the method's own
docstring) state. -/
theorem get_access_grants_everything :
    get_access = ⟨true, true, true, true, true, true⟩
    ∧ get_access.write = true ∧ get_access.delete = true
    ∧ get_access.create = true ∧ get_access.relocate = true
    ∧ get_access ≠ specReadOnlyAcl := by
  refine ⟨rfl, rfl, rfl, rfl, rfl, ?_⟩
  decide

/-- Claim C2: a COPY whose source does not exist does not return 404 —
line 451 evaluates the undefined name `HtpResponseNotFound` (a typo),
so a `NameError` propagates (surfacing as a 500) with the backend
unchanged.  The model evaluates the handler at a request for the
missing source `/nope.txt` over `fsSample`. -/
theorem doCOPY_missing_source_raises :
    doCOPY fsSample get_access copyReqMissing false noopCopy noopMove
      = CopyOutcome.nameError fsSample
    ∧ fsExists fsSample (mkResPath copyReqMissing.path) = false := by
  exact ⟨rfl, rfl⟩

/-- Claim C3: a PROPFIND whose body selects propname does not emit the
six live property names.  The `iterparse` loop only sets the
`names_only` flag for a propname element and never fills `props`, so
`get_properties` (which in names-only mode filters the *requested*
names against the live set) receives an empty name list and returns an
empty `found` list: the emitted response carries no 200 OK propstat at
all, rather than all six live names. -/
theorem propname_request_emits_no_names :
    propfindSelect (some 39) propnameBody = some (true, [])
    ∧ propfindFoundProps utcTz res0 (true, []) = []
    ∧ DAV_LIVE_PROPERTIES.length = 6 := by
  exact ⟨rfl, rfl, rfl⟩

/-- Claim C4: `rfc3339_date` does not render the adjusted timestamp's
time of day.  It converts the timestamp with `datetime.date.fromtimestamp`,
which keeps only the calendar date, so the hours, minutes and seconds
render as `00:00:00` for every timestamp: at timestamp 3661
(01:01:01 UTC on 1970-01-01) in a UTC locale without daylight saving it
produces `1970-01-01T00:00:00Z`, not `1970-01-01T01:01:01Z`. -/
theorem rfc3339_date_drops_time_of_day :
    rfc3339_date utcTz 3661 = "1970-01-01T00:00:00Z"
    ∧ rfc3339_date utcTz 3661 ≠ "1970-01-01T01:01:01Z"
    ∧ rfc3339_date utcTz 0 = "" := by
  refine ⟨rfl, ?_, rfl⟩
  decide

/-- Claim C5, counterexample: the third conjunct of the claim fails —
`safe_join` only strips slashes at segment boundaries, so a segment
containing an internal double slash survives into the result:
`safe_join('a', 'b//c') = '/a/b//c'`, which contains `//`. -/
theorem safe_join_double_slash_cex :
    safe_join ("a".data) [("b//c").data] = ("/a/b//c").data
    ∧ hasDoubleSlash (safe_join ("a".data) [("b//c").data]) = true := by
  exact ⟨rfl, rfl⟩

/-- Claim C5 (amended): for all inputs,
`safe_join(safe_join(a,b),c) = safe_join(a,b,c)` and every `safe_join`
result starts with a slash; the result is free of `//` provided every
input is itself free of `//` (the counterexample forces this proviso on
the third conjunct only — the first two hold unconditionally). -/
theorem safe_join_props (a b c root : List Char) (ps : List (List Char)) :
    safe_join (safe_join a [b]) [c] = safe_join a [b, c]
    ∧ (safe_join root ps).head? = some slash
    ∧ (hasDoubleSlash root = false → (∀ p ∈ ps, hasDoubleSlash p = false) →
        hasDoubleSlash (safe_join root ps) = false) := by
  refine ⟨?_, safe_join_head root ps,
          fun hroot hps => hasDoubleSlash_safe_join root ps hroot hps⟩
  have h := safe_join_append a [b] [c]
  simpa using h

/-- Witness for `safe_join_props` at concrete inputs, discharging the
proviso of the third conjunct. -/
theorem safe_join_props_witness :
    (safe_join (safe_join "a".data ["b".data]) ["c".data]
        = safe_join "a".data ["b".data, "c".data])
    ∧ (safe_join "r".data [("x/y".data)]).head? = some slash
    ∧ hasDoubleSlash (safe_join "r".data [("x/y".data)]) = false :=
  ⟨(safe_join_props "a".data "b".data "c".data "r".data [("x/y".data)]).1,
   (safe_join_props "a".data "b".data "c".data "r".data [("x/y".data)]).2.1,
   (safe_join_props "a".data "b".data "c".data "r".data [("x/y".data)]).2.2
     (by decide) (by decide)⟩

/-- Claim C6: `doPUT` returns 405 with the backend unchanged when the
target is a collection; 404 when the target's parent does not exist;
403 when `write` is denied; otherwise it stores the request body as the
target's content and returns 201 when the target did not exist
beforehand and 204 when it did. -/
theorem doPUT_cases (fs : FS) (acl : DavAcl) (reqPath body : String) :
    (fsIsdir fs (mkResPath reqPath) = true →
       doPUT fs acl reqPath body = (Status.methodNotAllowed, fs))
    ∧ (fsIsdir fs (mkResPath reqPath) = false →
       fsExists fs (mkResPath (dirname (mkResPath reqPath))) = false →
       doPUT fs acl reqPath body = (Status.notFound, fs))
    ∧ (fsIsdir fs (mkResPath reqPath) = false →
       fsExists fs (mkResPath (dirname (mkResPath reqPath))) = true →
       acl.write = false →
       doPUT fs acl reqPath body = (Status.forbidden, fs))
    ∧ (fsIsdir fs (mkResPath reqPath) = false →
       fsExists fs (mkResPath (dirname (mkResPath reqPath))) = true →
       acl.write = true →
       doPUT fs acl reqPath body =
         (if fsExists fs (mkResPath reqPath) = true then Status.noContent
          else Status.created,
          setNode fs (mkResPath reqPath) (Node.file body))) := by
  refine ⟨fun h1 => ?_, fun h1 h2 => ?_, fun h1 h2 h3 => ?_, fun h1 h2 h3 => ?_⟩
  · simp [doPUT, h1]
  · simp [doPUT, h1, h2]
  · simp [doPUT, h1, h2, h3]
  · by_cases he : fsExists fs (mkResPath reqPath) = true <;>
      simp [doPUT, h1, h2, h3, he]

/-- Witness for `doPUT_cases`: all four branches exercised over
`fsSample`. -/
theorem doPUT_cases_witness :
    doPUT fsSample aclAll "/a" "x" = (Status.methodNotAllowed, fsSample)
    ∧ doPUT fsSample aclAll "/nope/f.txt" "x" = (Status.notFound, fsSample)
    ∧ doPUT fsSample aclNone "/b.txt" "x" = (Status.forbidden, fsSample)
    ∧ doPUT fsSample aclAll "/b.txt" "x"
        = (Status.noContent, setNode fsSample "/b.txt" (Node.file "x"))
    ∧ doPUT fsSample aclAll "/c.txt" "x"
        = (Status.created, setNode fsSample "/c.txt" (Node.file "x")) := by
  refine ⟨(doPUT_cases fsSample aclAll "/a" "x").1 (by decide),
          (doPUT_cases fsSample aclAll "/nope/f.txt" "x").2.1 (by decide) (by decide),
          (doPUT_cases fsSample aclNone "/b.txt" "x").2.2.1 (by decide) (by decide) rfl,
          ?_, ?_⟩
  · have h := (doPUT_cases fsSample aclAll "/b.txt" "x").2.2.2
      (by decide) (by decide) rfl
    rw [h]
    decide
  · have h := (doPUT_cases fsSample aclAll "/c.txt" "x").2.2.2
      (by decide) (by decide) rfl
    rw [h]
    decide

/-- Claim C7: `doMKCOL` returns 405 with the backend unchanged when the
target exists; 409 when the parent does not exist; 415 when the request
Content-Length parses to a value greater than 0; 403 when `create` is
denied; otherwise it creates a collection at the target and returns
201. -/
theorem doMKCOL_cases (fs : FS) (acl : DavAcl) (reqPath : String)
    (contentLength : Option Nat) :
    (fsExists fs (mkResPath reqPath) = true →
       doMKCOL fs acl reqPath contentLength = (Status.methodNotAllowed, fs))
    ∧ (fsExists fs (mkResPath reqPath) = false →
       fsExists fs (mkResPath (dirname (mkResPath reqPath))) = false →
       doMKCOL fs acl reqPath contentLength = (Status.conflict, fs))
    ∧ (fsExists fs (mkResPath reqPath) = false →
       fsExists fs (mkResPath (dirname (mkResPath reqPath))) = true →
       0 < contentLength.getD 0 →
       doMKCOL fs acl reqPath contentLength = (Status.unsupportedMediaType, fs))
    ∧ (fsExists fs (mkResPath reqPath) = false →
       fsExists fs (mkResPath (dirname (mkResPath reqPath))) = true →
       contentLength.getD 0 = 0 →
       acl.create = false →
       doMKCOL fs acl reqPath contentLength = (Status.forbidden, fs))
    ∧ (fsExists fs (mkResPath reqPath) = false →
       fsExists fs (mkResPath (dirname (mkResPath reqPath))) = true →
       contentLength.getD 0 = 0 →
       acl.create = true →
       doMKCOL fs acl reqPath contentLength =
         (Status.created, setNode fs (mkResPath reqPath) Node.dir)) := by
  refine ⟨fun h1 => ?_, fun h1 h2 => ?_, fun h1 h2 h3 => ?_,
          fun h1 h2 h3 h4 => ?_, fun h1 h2 h3 h4 => ?_⟩
  · simp [doMKCOL, h1]
  · simp [doMKCOL, h1, h2]
  · simp [doMKCOL, h1, h2, Nat.pos_iff_ne_zero.mp h3]
  · simp [doMKCOL, h1, h2, h3, h4]
  · simp [doMKCOL, h1, h2, h3, h4]

/-- Witness for `doMKCOL_cases`: all five branches exercised over
`fsSample`. -/
theorem doMKCOL_cases_witness :
    doMKCOL fsSample aclAll "/a" none = (Status.methodNotAllowed, fsSample)
    ∧ doMKCOL fsSample aclAll "/nope/d" none = (Status.conflict, fsSample)
    ∧ doMKCOL fsSample aclAll "/c" (some 5) = (Status.unsupportedMediaType, fsSample)
    ∧ doMKCOL fsSample aclNone "/c" (some 0) = (Status.forbidden, fsSample)
    ∧ doMKCOL fsSample aclAll "/c" none
        = (Status.created, setNode fsSample "/c" Node.dir) := by
  refine ⟨(doMKCOL_cases fsSample aclAll "/a" none).1 (by decide),
          (doMKCOL_cases fsSample aclAll "/nope/d" none).2.1 (by decide) (by decide),
          (doMKCOL_cases fsSample aclAll "/c" (some 5)).2.2.1
            (by decide) (by decide) (by decide),
          (doMKCOL_cases fsSample aclNone "/c" (some 0)).2.2.2.1
            (by decide) (by decide) rfl rfl,
          ?_⟩
  have h := (doMKCOL_cases fsSample aclAll "/c" none).2.2.2.2
    (by decide) (by decide) rfl rfl
  rw [h]
  decide

/-- Claim C8: a COPY or MOVE that passes every header and precondition
check executes the resource class's copy/move and returns 207 when the
operation reported per-child errors, otherwise 204 when the destination
existed before the operation and 201 when it did not (the default
`DavResource.copy`/`DavResource.move` return `None`, i.e. no errors,
but the handler honours whatever truthiness the injected resource class
returns). -/
theorem doCOPY_executes (fs : FS) (acl : DavAcl) (req : CopyReq) (move : Bool)
    (bCopy : FS → String → String → Int → FS × Bool)
    (bMove : FS → String → String → FS × Bool) (d : UrlParts)
    (fs2 : FS) (e : Bool)
    (h1 : fsExists fs (mkResPath req.path) = true)
    (h2 : acl.relocate = true)
    (h3 : req.destination = some d)
    (h4 : req.srcScheme = d.scheme)
    (h5 : req.srcNetloc = d.netloc)
    (h6 : fsExists fs (mkResPath (dirname (destPath req d))) = true)
    (h7 : req.overwrite.getD "T" = "T"
          ∨ (req.overwrite.getD "T" = "F"
             ∧ fsExists fs (destPath req d) = false))
    (h8 : lowerAscii (req.depth.getD "infinity") = "infinity"
          ∨ (lowerAscii (req.depth.getD "infinity") = "0" ∧ move = false))
    (hop : (if move then
              bMove (deleteTree fs (destPath req d)) (mkResPath req.path)
                (destPath req d)
            else
              bCopy fs (mkResPath req.path) (destPath req d)
                (if lowerAscii (req.depth.getD "infinity") = "infinity" then -1
                 else 0)) = (fs2, e)) :
    doCOPY fs acl req move bCopy bMove
      = CopyOutcome.response
          (if e = true then Status.multiStatus
           else if fsExists fs (destPath req d) = true then Status.noContent
           else Status.created) fs2 := by
  simp only [destPath] at h6 h7 hop
  rcases h7 with h7 | ⟨h7, h7x⟩ <;> rcases h8 with h8 | ⟨h8, h8m⟩ <;>
    simp_all [doCOPY, destPath] <;> split_ifs <;> rfl

/-- Witness for `doCOPY_executes`: a COPY over `fsSample` to the absent
destination `/c.txt` with default headers, whose resource class reports
per-child errors, yielding 207 Multi-Status. -/
theorem doCOPY_executes_witness :
    doCOPY fsSample aclAll copyReqOk false errCopy noopMove
      = CopyOutcome.response Status.multiStatus fsSample := by
  have h := doCOPY_executes fsSample aclAll copyReqOk false errCopy noopMove
    ⟨"http", "h", "/c.txt"⟩ fsSample true (by decide) rfl rfl rfl rfl
    (by decide) (Or.inl rfl) (Or.inl (by decide)) (by decide)
  rw [h]
  decide

/-- Claim C9: a COPY or MOVE whose destination exists while the
`Overwrite` header is `F` returns 412 Precondition Failed with the
backend unchanged — the check precedes the `dst.delete()` call and the
copy/move, so no mutation has happened. -/
theorem doCOPY_overwriteF (fs : FS) (acl : DavAcl) (req : CopyReq) (move : Bool)
    (bCopy : FS → String → String → Int → FS × Bool)
    (bMove : FS → String → String → FS × Bool) (d : UrlParts)
    (h1 : fsExists fs (mkResPath req.path) = true)
    (h2 : acl.relocate = true)
    (h3 : req.destination = some d)
    (h4 : req.srcScheme = d.scheme)
    (h5 : req.srcNetloc = d.netloc)
    (h6 : fsExists fs (mkResPath (dirname (destPath req d))) = true)
    (h7 : req.overwrite = some "F")
    (h8 : fsExists fs (destPath req d) = true) :
    doCOPY fs acl req move bCopy bMove
      = CopyOutcome.response Status.preconditionFailed fs := by
  simp only [destPath] at h6 h8
  simp_all [doCOPY]

/-- Witness for `doCOPY_overwriteF`: a MOVE over `fsSample` with
`Overwrite: F` against the existing destination `/b.txt`. -/
theorem doCOPY_overwriteF_witness :
    doCOPY fsSample aclAll copyReqOwF true noopCopy noopMove
      = CopyOutcome.response Status.preconditionFailed fsSample :=
  doCOPY_overwriteF fsSample aclAll copyReqOwF true noopCopy noopMove
    ⟨"http", "h", "/b.txt"⟩ (by decide) rfl rfl rfl rfl (by decide) rfl
    (by decide)

/-- Claim C10, counterexample: an OPTIONS request for a path that does
not exist and whose parent is not a collection returns the fresh 404
response built on line 518, which carries no `DAV` header at all. -/
theorem doOPTIONS_404_lacks_dav :
    doOPTIONS [] "/a/b" = ⟨404, none, none, none⟩
    ∧ (doOPTIONS [] "/a/b").dav ≠ some "1,2" := by
  refine ⟨rfl, ?_⟩
  decide

/-- Claim C10 (amended): every OPTIONS response other than the 404 Not
Found returned when neither the target nor its parent collection exists
carries the header `DAV: 1,2`. -/
theorem doOPTIONS_dav_on_non404 (fs : FS) (reqPath : String)
    (h : (doOPTIONS fs reqPath).status ≠ 404) :
    (doOPTIONS fs reqPath).dav = some "1,2" := by
  by_cases h1 : reqPath = "/" ∨ reqPath = "*"
  · simp [doOPTIONS, h1]
  · by_cases h2 : fsExists fs (mkResPath reqPath) = false
    · by_cases h3 : fsIsdir fs (mkResPath (dirname (mkResPath reqPath))) = false
      · exact absurd (by simp [doOPTIONS, h1, h2, h3]) h
      · simp [doOPTIONS, h1, h2, h3]
    · by_cases h4 : fsIsdir fs (mkResPath reqPath) = true
      · simp [doOPTIONS, h1, h2, h4]
      · simp [doOPTIONS, h1, h2, h4]

/-- Witness for `doOPTIONS_dav_on_non404`: OPTIONS on the existing
collection `/a` of `fsSample` is a 200 carrying `DAV: 1,2`. -/
theorem doOPTIONS_dav_on_non404_witness :
    (doOPTIONS fsSample "/a").status ≠ 404
    ∧ (doOPTIONS fsSample "/a").dav = some "1,2" :=
  ⟨by decide, doOPTIONS_dav_on_non404 fsSample "/a" (by decide)⟩

end DjangoWebdav
